import Mathlib

/-!
Shallow embedding of `src/upc_scanner.py` (a Streamlit collectible-scanner
script) and verification of its specification claims.

External effects (HTTP fetches, the Google-Sheets append, barcode decoding,
OCR) are modelled as explicit inputs: each pipeline function takes the
outcome of its external call as a parameter and is otherwise a faithful
translation of the Python control flow.
-/

namespace UpcScanner

/-- The session record `st.session_state["current_car"]` (lines 111-114). -/
structure Car where
  title : String
  brand : String
  image : String
  upc : String
  model_code : String
deriving DecidableEq, Repr

/-- The empty defaults the record is initialised to and reset to. -/
def initCar : Car :=
  { title := "", brand := "Hot Wheels", image := "", upc := "", model_code := "" }

/-- The dict returned by `lookup_upc` (keys title/brand/image/upc). -/
structure ApiResult where
  title : String
  brand : String
  image : String
  upc : String
deriving DecidableEq, Repr

/-- One element of the remote catalog's `items` list; `none` models a missing
key (`item.get` would return the default). -/
structure UpcItem where
  title : Option String
  brand : Option String
  images : Option (List String)
deriving DecidableEq, Repr

/-- The JSON object returned by `response.json()`; `items = none` models the
key `"items"` being absent. -/
structure UpcData where
  items : Option (List UpcItem)
deriving DecidableEq, Repr

/-- Outcome of the `requests.get` call in `lookup_upc`: a raised network
exception, a response whose `.json()` raises, or a response with parsed
JSON. The status code is carried for fidelity; `lookup_upc` never reads it. -/
inductive UpcFetch where
  | netError : UpcFetch
  | jsonError (status : Nat) : UpcFetch
  | jsonOk (status : Nat) (data : UpcData) : UpcFetch
deriving DecidableEq, Repr

/-- The dict `lookup_upc` returns on every failure path (line 93). -/
def notFoundRes (upc : String) : ApiResult :=
  { title := "", brand := "Hot Wheels", image := "", upc := upc }

/-- Expression `item.get("images", [""])[0] if item.get("images") else ""` (line 88):
a missing key or an empty list is falsy and yields `""`. -/
def imageOf (it : UpcItem) : String :=
  match it.images with
  | some (i :: _) => i
  | _ => ""

/-- Function `lookup_upc` (lines 78-93): the whole body sits in `try/except: pass`,
so any exception falls through to the default dict; status is not checked. -/
def lookup_upc (upc : String) (out : UpcFetch) : ApiResult :=
  match out with
  | .netError => notFoundRes upc
  | .jsonError _ => notFoundRes upc
  | .jsonOk _ data =>
    match data.items with
    | some (item :: _) =>
      { title := item.title.getD "", brand := item.brand.getD ("Hot Wheels"),
        image := imageOf item, upc := upc }
    | _ => notFoundRes upc

/-- Membership test for the regex character class `[A-Z0-9]`, by codepoint. -/
def isCU (c : Char) : Bool :=
  (65 ≤ c.toNat && c.toNat ≤ 90) || (48 ≤ c.toNat && c.toNat ≤ 57)

/-- Whether the pattern `[A-Z0-9]{5}-[A-Z0-9]{4}` matches at the start of the
character list (what `re.search` tests at each scan position). -/
def matchAt (l : List Char) : Bool :=
  match l with
  | a :: b :: c :: d :: e :: h :: f :: g :: i :: j :: _ =>
    isCU a && isCU b && isCU c && isCU d && isCU e && (h == '-') &&
    isCU f && isCU g && isCU i && isCU j
  | _ => false

/-- The `re.search` scan: try each position left to right, return the first
match (10 characters, since the pattern is fixed-length). -/
def findCodeAux : List Char → Option (List Char)
  | [] => none
  | c :: rest =>
    if matchAt (c :: rest) then some ((c :: rest).take 10)
    else findCodeAux rest

/-- Function `extract_model_code` (lines 95-106), as a function of the OCR text
(grayscale/contrast/OCR are the external text source). -/
def extract_model_code (text : String) : Option String :=
  (findCodeAux text.data).map String.mk


/-- Python whitespace (for `str.strip` / `str.split()`), by codepoint:
space, tab, newline, carriage return, vertical tab, form feed. -/
def pyWS (c : Char) : Bool :=
  c.toNat = 32 || c.toNat = 9 || c.toNat = 10 || c.toNat = 13 ||
  c.toNat = 11 || c.toNat = 12

/-- Python `str.strip()`: drop whitespace from both ends. -/
def pyStrip (l : List Char) : List Char :=
  ((l.dropWhile pyWS).reverse.dropWhile pyWS).reverse

/-- Python `s.split(sep)[0]`: the characters before the first separator. -/
def splitFirst (sep : Char) : List Char → List Char
  | [] => []
  | c :: rest => if c = sep then [] else c :: splitFirst sep rest

/-- The standard base64 alphabet. -/
def b64Table : List Char :=
  "ABCDEFGHIJKLMNOPQRSTUVWXYZabcdefghijklmnopqrstuvwxyz0123456789+/".data

/-- Character for a 6-bit group. -/
def b64Char (n : Nat) : Char := b64Table.getD n 'A'

/-- 6-bit value of an alphabet character. -/
def b64Val (c : Char) : Nat := b64Table.indexOf c

/-- Model of `base64.b64encode` on a byte list: 3 bytes to 4 characters, with
`=` padding for a 1- or 2-byte tail. -/
def b64encode : List Nat → List Char
  | [] => []
  | [a] => [b64Char (a / 4), b64Char (a % 4 * 16), '=', '=']
  | [a, b] => [b64Char (a / 4), b64Char (a % 4 * 16 + b / 16), b64Char (b % 16 * 4), '=']
  | a :: b :: c :: rest =>
    b64Char (a / 4) :: b64Char (a % 4 * 16 + b / 16) ::
    b64Char (b % 16 * 4 + c / 64) :: b64Char (c % 64) :: b64encode rest

/-- Model of `base64.b64decode` on well-formed input: 4 characters to 3 bytes, with
padding handling at the end. -/
def b64decode : List Char → List Nat
  | c1 :: c2 :: c3 :: c4 :: rest =>
    if c3 = '=' then [b64Val c1 * 4 + b64Val c2 / 16]
    else if c4 = '=' then
      [b64Val c1 * 4 + b64Val c2 / 16, b64Val c2 % 16 * 16 + b64Val c3 / 4]
    else
      (b64Val c1 * 4 + b64Val c2 / 16) :: (b64Val c2 % 16 * 16 + b64Val c3 / 4) ::
      (b64Val c3 % 4 * 64 + b64Val c4) :: b64decode rest
  | _ => []

/-- UTF-8 encoding of one character (`str.encode("utf-8")`, per char). -/
def utf8Bytes (c : Char) : List Nat :=
  if c.toNat < 128 then [c.toNat]
  else if c.toNat < 2048 then [192 + c.toNat / 64, 128 + c.toNat % 64]
  else if c.toNat < 65536 then
    [224 + c.toNat / 4096, 128 + c.toNat / 64 % 64, 128 + c.toNat % 64]
  else
    [240 + c.toNat / 262144, 128 + c.toNat / 4096 % 64,
     128 + c.toNat / 64 % 64, 128 + c.toNat % 64]

/-- UTF-8 encoding of a character list. -/
def utf8EncodeL (l : List Char) : List Nat := l.flatMap utf8Bytes


/-- Line 41: `clean_code = code.split("-")[0].strip()`. -/
def collecthw_clean (code : String) : List Char :=
  pyStrip (splitFirst '-' code.data)

/-- The query URL built at lines 41-45: fixed base path plus the base64 of
the UTF-8 bytes of the cleaned pre-hyphen segment. -/
def collecthw_url (code : String) : String :=
  "https://collecthw.com/hw/search/" ++ String.mk (b64encode (utf8EncodeL (collecthw_clean code)))

/-- Does `pat` occur at the start of `l`? -/
def startsWithL : List Char → List Char → Bool
  | _, [] => true
  | [], _ :: _ => false
  | c :: cs, p :: ps => c == p && startsWithL cs ps

/-- Substring containment, the semantics of `re.compile(pat).search(href)`
for the literal pattern `/hw/item/`. -/
def containsSub (l pat : List Char) : Bool :=
  match l with
  | [] => pat.isEmpty
  | _ :: rest => startsWithL l pat || containsSub rest pat

/-- Python `" ".join(text.split())` (line 66): split into maximal
non-whitespace runs, rejoin with single spaces. -/
def pyWordsAux : List Char → List Char → List (List Char)
  | [], acc => if acc.isEmpty then [] else [acc.reverse]
  | c :: rest, acc =>
    if pyWS c then
      if acc.isEmpty then pyWordsAux rest [] else acc.reverse :: pyWordsAux rest []
    else pyWordsAux rest (c :: acc)

/-- Join words with single spaces. -/
def joinSpace : List (List Char) → List Char
  | [] => []
  | [w] => w
  | w :: ws => w ++ ' ' :: joinSpace ws

/-- Python `" ".join(s.split())`: collapse whitespace runs, trim both ends. -/
def normSpace (s : String) : String := String.mk (joinSpace (pyWordsAux s.data []))


/-- Outcome of the `requests.get` in `search_collecthw`: a raised exception,
or a response with a status code and the anchors of the parsed page, each as
(href, display text) in document order. -/
inductive HwFetch where
  | netError : HwFetch
  | response (status : Nat) (anchors : List (String × String)) : HwFetch
deriving DecidableEq, Repr

/-- Function `search_collecthw` (lines 39-75): URL is computed before the `try`, so
every path — found, no matching anchor, non-200 status, raised exception —
returns the same URL as second component. `soup.find("a", href=...)` is the
first anchor whose href contains `/hw/item/`; the candidate name is the
whitespace-normalised text of that anchor (possibly empty). -/
def search_collecthw (code : String) (out : HwFetch) : Option String × String :=
  match out with
  | .netError => (none, collecthw_url code)
  | .response status anchors =>
    if status = 200 then
      match anchors.find? (fun a => containsSub a.1.data ("/hw/item/".data)) with
      | some a => (some (normSpace a.2), collecthw_url code)
      | none => (none, collecthw_url code)
    else (none, collecthw_url code)

/-- The external identity sources the scan block can query. -/
inductive Source where
  | upcLookup : Source
  | collecthwFetch : Source
deriving DecidableEq, Repr

/-- Result of one run of the scan block: the updated session record, which
sources were queried (in order), the fallback search link shown when
auto-identification fails, and the verify link shown on success. -/
structure ScanOut where
  car : Car
  queried : List Source
  shownLink : Option String
  verifyLink : Option String
deriving DecidableEq, Repr

/-- The update call on the session record at line 134: a dict
update assigns every key of the incoming dict — title, brand, image, upc —
unconditionally; `model_code` is not a key of `api_result` and is kept. -/
def updateCar (car : Car) (r : ApiResult) : Car :=
  { title := r.title, brand := r.brand, image := r.image, upc := r.upc,
    model_code := car.model_code }

/-- Lines 128-134: if any barcode decoded, look up the first payload and
merge the result; otherwise leave the record alone. -/
def catalogStage (car : Car) (decoded : List String) (uf : UpcFetch) :
    Car × List Source :=
  match decoded with
  | [] => (car, [])
  | p :: _ => (updateCar car (lookup_upc p uf), [Source.upcLookup])

/-- Lines 146-154: consume the `search_collecthw` result `r`. `if hw_name:`
treats both `None` and the empty string as failure; on failure the fallback
link is shown when the URL is truthy (`if link:`). -/
def collecthwStage (car2 : Car) (q1 : List Source) (r : Option String × String) : ScanOut :=
  match r.1 with
  | some nm =>
    if nm = "" then
      ⟨car2, q1 ++ [Source.collecthwFetch], if r.2 = "" then none else some r.2, none⟩
    else
      ⟨{ car2 with title := nm }, q1 ++ [Source.collecthwFetch], none, some r.2⟩
  | none =>
    ⟨car2, q1 ++ [Source.collecthwFetch], if r.2 = "" then none else some r.2, none⟩

/-- Lines 140-154: assign the found model code, then query collecthw only
when the record's title is still empty. -/
def modelCodeStage (car1 : Car) (q1 : List Source) (code : String) (hf : HwFetch) : ScanOut :=
  if car1.title = "" then
    collecthwStage { car1 with model_code := code } q1 (search_collecthw code hf)
  else ⟨{ car1 with model_code := code }, q1, none, none⟩

/-- The scan block (lines 128-154) after a successful image load, as a
function of the session record and the external inputs: the decoded barcode
payloads, the catalog-fetch outcome, the OCR text, and the collecthw-fetch
outcome. -/
def scanStep (car : Car) (decoded : List String) (uf : UpcFetch)
    (text : String) (hf : HwFetch) : ScanOut :=
  match extract_model_code text with
  | none => ⟨(catalogStage car decoded uf).1, (catalogStage car decoded uf).2, none, none⟩
  | some code =>
    modelCodeStage (catalogStage car decoded uf).1 (catalogStage car decoded uf).2 code hf

/-- The five-column row built at lines 31-32:
`[title, brand, image formula, upc, model_code]`, where the image formula is
`=IMAGE("<url>")` when `car["image"]` is truthy and `""` otherwise. -/
def rowOf (car : Car) : List String :=
  [car.title, car.brand,
   if car.image = "" then "" else "=IMAGE(\"" ++ car.image ++ "\")",
   car.upc, car.model_code]

/-- Outcome of the Google-Sheets interaction in `save_to_sheet`: connection
failure (`get_sheet_connection` returned `None`), an exception raised by
`append_row` (with its message), or a successful append. -/
inductive WriteOut where
  | noConnection : WriteOut
  | appendError (emsg : String) : WriteOut
  | appendOk : WriteOut
deriving DecidableEq, Repr

/-- Function `save_to_sheet` (lines 26-36): returns a success flag and a message, and
the rows actually appended to the sheet (one on success, none otherwise). -/
def save_to_sheet (car : Car) (w : WriteOut) : Bool × String × List (List String) :=
  match w with
  | .noConnection => (false, "❌ Error: Could not connect to Google Sheet.", [])
  | .appendError e => (false, "❌ Cloud Error: " ++ e, [])
  | .appendOk => (true, "✅ Parked \x27" ++ car.title ++ "\x27!", [rowOf car])

/-- The edit widgets (lines 169-175): title, brand and model code are
replaced by the text-input values; image and upc are not editable. -/
def userEdit (car : Car) (t b m : String) : Car :=
  { car with title := t, brand := b, model_code := m }

/-- Result of pressing "Save to Collection": the session record afterwards,
whether `save_to_sheet` was invoked, the rows appended, and the message
shown to the user. -/
structure PersistOut where
  car : Car
  saveCalled : Bool
  appended : List (List String)
  message : String
deriving DecidableEq, Repr

/-- The save-button handler (lines 177-189): an empty title is rejected
locally with an error message and no write; otherwise `save_to_sheet` runs
and the record is reset to the empty defaults exactly when it succeeded. -/
def persistStep (car : Car) (w : WriteOut) : PersistOut :=
  if car.title = "" then ⟨car, false, [], "Enter a Name first!"⟩
  else if (save_to_sheet car w).1 then
    ⟨initCar, true, (save_to_sheet car w).2.2, (save_to_sheet car w).2.1⟩
  else ⟨car, true, (save_to_sheet car w).2.2, (save_to_sheet car w).2.1⟩

/-! ## Helper lemmas -/

theorem b64Val_b64Char : ∀ n, n < 64 → b64Val (b64Char n) = n := by decide

theorem b64Char_ne_pad : ∀ n, n < 64 → b64Char n ≠ '=' := by decide

theorem b64_roundtrip (l : List Nat) (h : ∀ x ∈ l, x < 256) :
    b64decode (b64encode l) = l := by
  match l with
  | [] => rfl
  | [a] =>
    have ha : a < 256 := h a (by simp)
    rw [b64encode, b64decode, if_pos rfl,
      b64Val_b64Char (a / 4) (by omega), b64Val_b64Char (a % 4 * 16) (by omega)]
    simp only [List.cons.injEq, and_true]
    omega
  | [a, b] =>
    have ha : a < 256 := h a (by simp)
    have hb : b < 256 := h b (by simp)
    rw [b64encode, b64decode,
      if_neg (b64Char_ne_pad (b % 16 * 4) (by omega)), if_pos rfl,
      b64Val_b64Char (a / 4) (by omega),
      b64Val_b64Char (a % 4 * 16 + b / 16) (by omega),
      b64Val_b64Char (b % 16 * 4) (by omega)]
    simp only [List.cons.injEq, and_true]
    omega
  | a :: b :: c :: rest =>
    have ha : a < 256 := h a (by simp)
    have hb : b < 256 := h b (by simp)
    have hc : c < 256 := h c (by simp)
    have ih : b64decode (b64encode rest) = rest :=
      b64_roundtrip rest (fun x hx => h x (by simp [hx]))
    rw [b64encode, b64decode,
      if_neg (b64Char_ne_pad (b % 16 * 4 + c / 64) (by omega)),
      if_neg (b64Char_ne_pad (c % 64) (by omega)),
      b64Val_b64Char (a / 4) (by omega),
      b64Val_b64Char (a % 4 * 16 + b / 16) (by omega),
      b64Val_b64Char (b % 16 * 4 + c / 64) (by omega),
      b64Val_b64Char (c % 64) (by omega), ih]
    simp only [List.cons.injEq, and_true]
    refine ⟨by omega, by omega, by omega⟩

theorem char_toNat_lt (c : Char) : c.toNat < 1114112 := by
  rcases c.valid with h | ⟨h1, h2⟩
  · exact Nat.lt_trans h (by norm_num)
  · exact h2

theorem utf8Bytes_lt (c : Char) : ∀ x ∈ utf8Bytes c, x < 256 := by
  have hc := char_toNat_lt c
  intro x hx
  unfold utf8Bytes at hx
  split_ifs at hx <;> simp at hx <;> omega

theorem utf8EncodeL_lt (l : List Char) : ∀ x ∈ utf8EncodeL l, x < 256 := by
  intro x hx
  simp only [utf8EncodeL, List.mem_flatMap] at hx
  obtain ⟨c, _, hc⟩ := hx
  exact utf8Bytes_lt c x hc

theorem utf8_ascii (l : List Char) (h : ∀ c ∈ l, c.toNat < 128) :
    utf8EncodeL l = l.map Char.toNat := by
  induction l with
  | nil => rfl
  | cons c rest ih =>
    have hc : c.toNat < 128 := h c (by simp)
    simp only [utf8EncodeL, List.flatMap_cons, List.map_cons] at *
    rw [utf8Bytes, if_pos hc, ih (fun x hx => h x (by simp [hx]))]
    rfl

theorem ascii_recover (l : List Char) (h : ∀ c ∈ l, c.toNat < 128) :
    (utf8EncodeL l).map Char.ofNat = l := by
  rw [utf8_ascii l h, List.map_map]
  have hcomp : Char.ofNat ∘ Char.toNat = id := funext Char.ofNat_toNat
  rw [hcomp, List.map_id]

theorem isCU_not_ws (c : Char) (h : isCU c = true) : pyWS c = false := by
  simp only [isCU, Bool.or_eq_true, Bool.and_eq_true, decide_eq_true_eq] at h
  simp only [pyWS, Bool.or_eq_false_iff, decide_eq_false_iff_not]
  omega

theorem isCU_ne_hyphen (c : Char) (h : isCU c = true) : c ≠ '-' := by
  intro heq
  rw [heq] at h
  exact absurd h (by decide)

theorem isCU_ascii (c : Char) (h : isCU c = true) : c.toNat < 128 := by
  simp only [isCU, Bool.or_eq_true, Bool.and_eq_true, decide_eq_true_eq] at h
  omega

theorem dropWhile_no_ws (l : List Char) (h : ∀ c ∈ l, pyWS c = false) :
    l.dropWhile pyWS = l := by
  cases l with
  | nil => rfl
  | cons c rest =>
    rw [List.dropWhile_cons, if_neg]
    simp [h c (by simp)]

theorem pyStrip_no_ws (l : List Char) (h : ∀ c ∈ l, pyWS c = false) :
    pyStrip l = l := by
  unfold pyStrip
  rw [dropWhile_no_ws l h,
    dropWhile_no_ws l.reverse (fun c hc => h c (List.mem_reverse.mp hc)),
    List.reverse_reverse]

theorem matchAt_clean (l : List Char) (hm : matchAt l = true) :
    splitFirst '-' l = l.take 5 ∧ ∀ c ∈ l.take 5, isCU c = true := by
  unfold matchAt at hm
  split at hm
  next a b c d e h6 f g i j tail =>
    simp only [Bool.and_eq_true, beq_iff_eq] at hm
    obtain ⟨⟨⟨⟨⟨⟨⟨⟨⟨ha, hb⟩, hc⟩, hd⟩, he⟩, hh⟩, hf⟩, hg⟩, hi⟩, hj⟩ := hm
    subst hh
    have na := isCU_ne_hyphen a ha
    have nb := isCU_ne_hyphen b hb
    have nc := isCU_ne_hyphen c hc
    have nd := isCU_ne_hyphen d hd
    have ne1 := isCU_ne_hyphen e he
    constructor
    · simp [splitFirst, na, nb, nc, nd, ne1]
    · intro x hx
      simp only [List.take, List.mem_cons, List.not_mem_nil, or_false] at hx
      rcases hx with rfl | rfl | rfl | rfl | rfl <;> assumption
  next =>
    exact absurd hm (by simp)

theorem collecthw_clean_grammar (code : String) (hm : matchAt code.data = true) :
    collecthw_clean code = code.data.take 5 ∧
    ∀ c ∈ collecthw_clean code, isCU c = true := by
  obtain ⟨h1, h2⟩ := matchAt_clean code.data hm
  have heq : collecthw_clean code = code.data.take 5 := by
    unfold collecthw_clean
    rw [h1, pyStrip_no_ws _ (fun c hc => isCU_not_ws c (h2 c hc))]
  exact ⟨heq, fun c hc => h2 c (heq ▸ hc)⟩

theorem findCodeAux_none_iff (l : List Char) :
    findCodeAux l = none ↔ ∀ i, matchAt (l.drop i) = false := by
  induction l with
  | nil =>
    constructor
    · intro _ i
      rw [List.drop_nil]
      rfl
    · intro _
      rfl
  | cons c rest ih =>
    by_cases hm : matchAt (c :: rest) = true
    · rw [findCodeAux, if_pos hm]
      constructor
      · intro h
        exact absurd h (by simp)
      · intro h
        have h0 := h 0
        rw [List.drop_zero, hm] at h0
        exact absurd h0 (by simp)
    · rw [findCodeAux, if_neg hm, ih]
      constructor
      · intro h i
        cases i with
        | zero =>
          rw [List.drop_zero]
          exact Bool.not_eq_true _ ▸ (by simpa using hm)
        | succ i =>
          rw [List.drop_succ_cons]
          exact h i
      · intro h i
        have := h (i + 1)
        rwa [List.drop_succ_cons] at this

theorem findCodeAux_some_leftmost (l m : List Char) (h : findCodeAux l = some m) :
    ∃ i, matchAt (l.drop i) = true ∧ (∀ j, j < i → matchAt (l.drop j) = false) ∧
      m = (l.drop i).take 10 := by
  induction l generalizing m with
  | nil => exact absurd h (by simp [findCodeAux])
  | cons c rest ih =>
    by_cases hm : matchAt (c :: rest) = true
    · rw [findCodeAux, if_pos hm] at h
      refine ⟨0, by simpa using hm, fun j hj => absurd hj (by omega), ?_⟩
      rw [List.drop_zero]
      exact (Option.some.inj h).symm
    · rw [findCodeAux, if_neg hm] at h
      obtain ⟨i, h1, h2, h3⟩ := ih m h
      refine ⟨i + 1, ?_, ?_, ?_⟩
      · rwa [List.drop_succ_cons]
      · intro j hj
        cases j with
        | zero =>
          rw [List.drop_zero]
          simpa using hm
        | succ j =>
          rw [List.drop_succ_cons]
          exact h2 j (by omega)
      · rwa [List.drop_succ_cons]

theorem findCodeAux_ne_nil (l m : List Char) (h : findCodeAux l = some m) : m ≠ [] := by
  obtain ⟨i, h1, _, h3⟩ := findCodeAux_some_leftmost l m h
  intro hnil
  rw [hnil] at h3
  cases hd : l.drop i with
  | nil =>
    rw [hd] at h1
    exact absurd h1 (by decide)
  | cons x xs =>
    rw [hd] at h3
    simp at h3

theorem extract_code_ne_empty (text code : String)
    (h : extract_model_code text = some code) : code ≠ "" := by
  unfold extract_model_code at h
  cases hf : findCodeAux text.data with
  | none =>
    rw [hf] at h
    exact absurd h (by simp)
  | some m =>
    rw [hf] at h
    have hmk : String.mk m = code := by simpa using h
    have hne := findCodeAux_ne_nil _ _ hf
    intro hc
    have : m = [] := by
      have := congrArg String.data (hmk.trans hc)
      simpa using this
    exact hne this

theorem lookup_upc_upc (u : String) (o : UpcFetch) : (lookup_upc u o).upc = u := by
  unfold lookup_upc
  rcases o with _ | s | ⟨s, items⟩
  · rfl
  · rfl
  · rcases items with _ | l
    · rfl
    · rcases l with _ | ⟨it, rest⟩
      · rfl
      · rfl

theorem catalogStage_model_code (car : Car) (decoded : List String) (uf : UpcFetch) :
    (catalogStage car decoded uf).1.model_code = car.model_code := by
  cases decoded <;> rfl

theorem search_collecthw_snd (code : String) (out : HwFetch) :
    (search_collecthw code out).2 = collecthw_url code := by
  unfold search_collecthw
  repeat' split
  all_goals rfl

theorem collecthwStage_upc (car2 : Car) (q1 : List Source) (r : Option String × String) :
    (collecthwStage car2 q1 r).car.upc = car2.upc := by
  unfold collecthwStage
  repeat' split
  all_goals rfl

theorem collecthwStage_image (car2 : Car) (q1 : List Source) (r : Option String × String) :
    (collecthwStage car2 q1 r).car.image = car2.image := by
  unfold collecthwStage
  repeat' split
  all_goals rfl

theorem collecthwStage_brand (car2 : Car) (q1 : List Source) (r : Option String × String) :
    (collecthwStage car2 q1 r).car.brand = car2.brand := by
  unfold collecthwStage
  repeat' split
  all_goals rfl

theorem collecthwStage_model_code (car2 : Car) (q1 : List Source) (r : Option String × String) :
    (collecthwStage car2 q1 r).car.model_code = car2.model_code := by
  unfold collecthwStage
  repeat' split
  all_goals rfl

theorem collecthwStage_queried (car2 : Car) (q1 : List Source) (r : Option String × String) :
    (collecthwStage car2 q1 r).queried = q1 ++ [Source.collecthwFetch] := by
  unfold collecthwStage
  repeat' split
  all_goals rfl

theorem collecthwStage_shownLink (car2 : Car) (q1 : List Source)
    (r : Option String × String) (l : String)
    (h : (collecthwStage car2 q1 r).shownLink = some l) : l = r.2 := by
  unfold collecthwStage at h
  split at h
  · split at h
    · split at h
      · exact absurd h (by simp)
      · exact (Option.some.inj h).symm
    · exact absurd h (by simp)
  · split at h
    · exact absurd h (by simp)
    · exact (Option.some.inj h).symm

theorem modelCodeStage_upc (car1 : Car) (q1 : List Source) (code : String) (hf : HwFetch) :
    (modelCodeStage car1 q1 code hf).car.upc = car1.upc := by
  unfold modelCodeStage
  split
  · exact collecthwStage_upc _ _ _
  · rfl

theorem modelCodeStage_image (car1 : Car) (q1 : List Source) (code : String) (hf : HwFetch) :
    (modelCodeStage car1 q1 code hf).car.image = car1.image := by
  unfold modelCodeStage
  split
  · exact collecthwStage_image _ _ _
  · rfl

theorem modelCodeStage_brand (car1 : Car) (q1 : List Source) (code : String) (hf : HwFetch) :
    (modelCodeStage car1 q1 code hf).car.brand = car1.brand := by
  unfold modelCodeStage
  split
  · exact collecthwStage_brand _ _ _
  · rfl

theorem modelCodeStage_model_code (car1 : Car) (q1 : List Source) (code : String) (hf : HwFetch) :
    (modelCodeStage car1 q1 code hf).car.model_code = code := by
  unfold modelCodeStage
  split
  · exact collecthwStage_model_code _ _ _
  · rfl

theorem modelCodeStage_queried (car1 : Car) (q1 : List Source) (code : String) (hf : HwFetch) :
    (modelCodeStage car1 q1 code hf).queried =
      q1 ++ (if car1.title = "" then [Source.collecthwFetch] else []) := by
  unfold modelCodeStage
  split
  next h => exact collecthwStage_queried _ _ _
  next h => exact (List.append_nil _).symm

theorem modelCodeStage_title_guard (car1 : Car) (q1 : List Source) (code : String)
    (hf : HwFetch) (ht : car1.title ≠ "") :
    (modelCodeStage car1 q1 code hf).car.title = car1.title := by
  unfold modelCodeStage
  rw [if_neg ht]

theorem modelCodeStage_shownLink (car1 : Car) (q1 : List Source) (code : String)
    (hf : HwFetch) (l : String)
    (h : (modelCodeStage car1 q1 code hf).shownLink = some l) :
    l = (search_collecthw code hf).2 := by
  unfold modelCodeStage at h
  split at h
  · exact collecthwStage_shownLink _ _ _ _ h
  · exact absurd h (by simp)

theorem scanStep_upc (car : Car) (decoded : List String) (uf : UpcFetch)
    (text : String) (hf : HwFetch) :
    (scanStep car decoded uf text hf).car.upc = (catalogStage car decoded uf).1.upc := by
  unfold scanStep
  cases hext : extract_model_code text with
  | none => rfl
  | some code => exact modelCodeStage_upc _ _ _ _

theorem scanStep_image (car : Car) (decoded : List String) (uf : UpcFetch)
    (text : String) (hf : HwFetch) :
    (scanStep car decoded uf text hf).car.image = (catalogStage car decoded uf).1.image := by
  unfold scanStep
  cases hext : extract_model_code text with
  | none => rfl
  | some code => exact modelCodeStage_image _ _ _ _

theorem scanStep_brand (car : Car) (decoded : List String) (uf : UpcFetch)
    (text : String) (hf : HwFetch) :
    (scanStep car decoded uf text hf).car.brand = (catalogStage car decoded uf).1.brand := by
  unfold scanStep
  cases hext : extract_model_code text with
  | none => rfl
  | some code => exact modelCodeStage_brand _ _ _ _

theorem scanStep_model_code (car : Car) (decoded : List String) (uf : UpcFetch)
    (text : String) (hf : HwFetch) :
    (scanStep car decoded uf text hf).car.model_code =
      (match extract_model_code text with
       | some c => c
       | none => car.model_code) := by
  unfold scanStep
  cases hext : extract_model_code text with
  | none => exact catalogStage_model_code car decoded uf
  | some code => exact modelCodeStage_model_code _ _ _ _

theorem scanStep_title_guard (car : Car) (decoded : List String) (uf : UpcFetch)
    (text : String) (hf : HwFetch)
    (ht : (catalogStage car decoded uf).1.title ≠ "") :
    (scanStep car decoded uf text hf).car.title = (catalogStage car decoded uf).1.title := by
  unfold scanStep
  cases hext : extract_model_code text with
  | none => rfl
  | some code => exact modelCodeStage_title_guard _ _ _ _ ht

theorem scanStep_queried (car : Car) (decoded : List String) (uf : UpcFetch)
    (text : String) (hf : HwFetch) :
    (scanStep car decoded uf text hf).queried =
      (catalogStage car decoded uf).2 ++
      (if extract_model_code text ≠ none ∧ (catalogStage car decoded uf).1.title = ""
       then [Source.collecthwFetch] else []) := by
  unfold scanStep
  cases hext : extract_model_code text with
  | none =>
    rw [if_neg (by simp), List.append_nil]
  | some code =>
    refine Eq.trans (modelCodeStage_queried _ _ _ _) ?_
    by_cases ht : (catalogStage car decoded uf).1.title = ""
    · have hcond : (some code ≠ none ∧ (catalogStage car decoded uf).1.title = "") :=
        ⟨by simp, ht⟩
      rw [if_pos ht, if_pos hcond]
    · have hncond : ¬(some code ≠ none ∧ (catalogStage car decoded uf).1.title = "") :=
        fun hc => ht hc.2
      rw [if_neg ht, if_neg hncond]

theorem scanStep_shownLink (car : Car) (decoded : List String) (uf : UpcFetch)
    (text : String) (hf : HwFetch) (l : String)
    (h : (scanStep car decoded uf text hf).shownLink = some l) :
    ∃ c, extract_model_code text = some c ∧ l = collecthw_url c := by
  unfold scanStep at h
  cases hext : extract_model_code text with
  | none =>
    rw [hext] at h
    exact absurd h (by simp)
  | some code =>
    rw [hext] at h
    refine ⟨code, rfl, ?_⟩
    rw [modelCodeStage_shownLink _ _ _ _ _ h, search_collecthw_snd]

theorem persistStep_nonempty (car : Car) (w : WriteOut) (h : car.title ≠ "") :
    persistStep car w =
      (if (save_to_sheet car w).1 then
        ⟨initCar, true, (save_to_sheet car w).2.2, (save_to_sheet car w).2.1⟩
      else ⟨car, true, (save_to_sheet car w).2.2, (save_to_sheet car w).2.1⟩) := by
  unfold persistStep
  rw [if_neg h]

theorem collecthwStage_title (car2 : Car) (q1 : List Source) (r : Option String × String) :
    (collecthwStage car2 q1 r).car.title = car2.title ∨
    (∃ nm, r.1 = some nm ∧ nm ≠ "" ∧ (collecthwStage car2 q1 r).car.title = nm) := by
  unfold collecthwStage
  split
  next nm hr =>
    split
    · exact Or.inl rfl
    next hnm => exact Or.inr ⟨nm, hr, hnm, rfl⟩
  · exact Or.inl rfl

theorem modelCodeStage_title (car1 : Car) (q1 : List Source) (code : String) (hf : HwFetch) :
    (modelCodeStage car1 q1 code hf).car.title = car1.title ∨
    (∃ nm, (search_collecthw code hf).1 = some nm ∧ nm ≠ "" ∧
      (modelCodeStage car1 q1 code hf).car.title = nm) := by
  unfold modelCodeStage
  split
  · rcases collecthwStage_title { car1 with model_code := code } q1 (search_collecthw code hf)
      with h | ⟨nm, h1, h2, h3⟩
    · exact Or.inl h
    · exact Or.inr ⟨nm, h1, h2, h3⟩
  · exact Or.inl rfl

/-! ## Claim theorems -/

/-- C3: when the session record's title is empty at a persist request, the
request is rejected with the validation message "Enter a Name first!", the
catalog writer is not invoked, no row is appended, and the record is
unchanged. -/
theorem persist_empty_title_rejected (car : Car) (w : WriteOut) (h : car.title = "") :
    persistStep car w = ⟨car, false, [], "Enter a Name first!"⟩ := by
  unfold persistStep
  rw [if_pos h]

/-- C3 witness: the empty-title rejection at the initial record. -/
theorem persist_empty_title_rejected_witness :
    persistStep initCar WriteOut.appendOk = ⟨initCar, false, [], "Enter a Name first!"⟩ :=
  persist_empty_title_rejected initCar WriteOut.appendOk rfl

/-- C4: a persist with non-empty title always calls the writer, resets the
record to the empty defaults exactly when the write succeeds, and leaves the
record unchanged (nothing appended) when it fails; and the scan pipeline
never resets a record to the defaults (given that decoded barcode payloads
are non-empty strings, as the barcode library guarantees). -/
theorem persist_reset_iff_success :
    (∀ (car : Car) (w : WriteOut), car.title ≠ "" →
      (persistStep car w).saveCalled = true ∧
      ((persistStep car w).car = initCar ↔ w = WriteOut.appendOk) ∧
      (w ≠ WriteOut.appendOk →
        (persistStep car w).car = car ∧ (persistStep car w).appended = [])) ∧
    (∀ (car : Car) (decoded : List String) (uf : UpcFetch) (text : String) (hf : HwFetch),
      (∀ p ∈ decoded, p ≠ "") →
      (scanStep car decoded uf text hf).car = initCar → car = initCar) := by
  constructor
  · intro car w h
    have hne : car ≠ initCar := fun he => h (by rw [he]; rfl)
    rcases w with _ | e | _
    · refine ⟨?_, ?_, fun _ => ⟨?_, ?_⟩⟩ <;>
        simp [persistStep_nonempty car WriteOut.noConnection h, save_to_sheet, hne]
    · refine ⟨?_, ?_, fun _ => ⟨?_, ?_⟩⟩ <;>
        simp [persistStep_nonempty car (WriteOut.appendError e) h, save_to_sheet, hne]
    · refine ⟨?_, ?_, fun hw => absurd rfl hw⟩ <;>
        simp [persistStep_nonempty car WriteOut.appendOk h, save_to_sheet]
  · intro car decoded uf text hf hp hres
    rcases decoded with _ | ⟨p, rest⟩
    · cases hext : extract_model_code text with
      | none =>
        have hsame : (scanStep car [] uf text hf).car = car := by
          unfold scanStep
          rw [hext]
          rfl
        rw [← hsame]
        exact hres
      | some code =>
        have hmc : (scanStep car [] uf text hf).car.model_code = code := by
          rw [scanStep_model_code, hext]
        rw [hres] at hmc
        exact absurd hmc.symm (extract_code_ne_empty text code hext)
    · have hupc : (scanStep car (p :: rest) uf text hf).car.upc = p := by
        rw [scanStep_upc]
        exact lookup_upc_upc p uf
      rw [hres] at hupc
      exact absurd hupc.symm (hp p (by simp))

/-- C4 witness: a failed write leaves a concrete record unchanged; a
successful write resets it to the defaults. -/
theorem persist_reset_iff_success_witness :
    ((persistStep ⟨"Speed Demon", "Hot Wheels", "", "012345678905", ""⟩
        WriteOut.noConnection).car =
      ⟨"Speed Demon", "Hot Wheels", "", "012345678905", ""⟩) ∧
    ((persistStep ⟨"Speed Demon", "Hot Wheels", "", "012345678905", ""⟩
        WriteOut.appendOk).car = initCar) := by
  constructor
  · exact ((persist_reset_iff_success.1 _ WriteOut.noConnection (by decide)).2.2 (by decide)).1
  · exact (persist_reset_iff_success.1 _ WriteOut.appendOk (by decide)).2.1.mpr rfl

/-- C5: on a successful write the appended row is exactly
`[title, brand, image directive, upc, model_code]`, where the third column
is the `=IMAGE(...)` formula embedding `image_url` when it is non-empty and
the empty string when it is empty. -/
theorem save_row_mapping (car : Car) :
    (save_to_sheet car WriteOut.appendOk).2.2 =
      [[car.title, car.brand,
        if car.image = "" then "" else "=IMAGE(\"" ++ car.image ++ "\")",
        car.upc, car.model_code]] ∧
    (car.image = "" → (save_to_sheet car WriteOut.appendOk).2.2 =
      [[car.title, car.brand, "", car.upc, car.model_code]]) ∧
    (car.image ≠ "" → (save_to_sheet car WriteOut.appendOk).2.2 =
      [[car.title, car.brand, "=IMAGE(\"" ++ car.image ++ "\")",
        car.upc, car.model_code]]) := by
  refine ⟨rfl, fun h => ?_, fun h => ?_⟩ <;> simp [save_to_sheet, rowOf, h]

/-- C5 witness: the row built for a concrete record with a non-empty image. -/
theorem save_row_mapping_witness :
    (save_to_sheet ⟨"Speed Demon", "Hot Wheels", "http://x/img.png", "012345678905", ""⟩
        WriteOut.appendOk).2.2 =
      [["Speed Demon", "Hot Wheels", "=IMAGE(\"http://x/img.png\")",
        "012345678905", ""]] :=
  (save_row_mapping _).2.2 (by decide)

/-- C9: the scan block depends only on the first decoded barcode payload;
any further decoded symbols are ignored. -/
theorem first_barcode_wins (car : Car) (p : String) (rest rest2 : List String)
    (uf : UpcFetch) (text : String) (hf : HwFetch) :
    scanStep car (p :: rest) uf text hf = scanStep car (p :: rest2) uf text hf := rfl

/-- C10: `lookup_upc` always echoes the queried code in the `upc` field, and
on a network exception, malformed JSON, a missing `items` key or an empty
item list it returns exactly the default dict; consequently whenever a
barcode decodes, the merged record's scan code is the decoded payload
regardless of the lookup outcome. -/
theorem lookup_failure_default :
    (∀ (code : String) (uf : UpcFetch), (lookup_upc code uf).upc = code) ∧
    (∀ code : String, lookup_upc code UpcFetch.netError =
      { title := "", brand := "Hot Wheels", image := "", upc := code }) ∧
    (∀ (code : String) (s : Nat), lookup_upc code (UpcFetch.jsonError s) =
      { title := "", brand := "Hot Wheels", image := "", upc := code }) ∧
    (∀ (code : String) (s : Nat), lookup_upc code (UpcFetch.jsonOk s ⟨none⟩) =
      { title := "", brand := "Hot Wheels", image := "", upc := code }) ∧
    (∀ (code : String) (s : Nat), lookup_upc code (UpcFetch.jsonOk s ⟨some []⟩) =
      { title := "", brand := "Hot Wheels", image := "", upc := code }) ∧
    (∀ (car : Car) (p : String) (rest : List String) (uf : UpcFetch)
        (text : String) (hf : HwFetch),
      (scanStep car (p :: rest) uf text hf).car.upc = p) := by
  refine ⟨lookup_upc_upc, fun _ => rfl, fun _ _ => rfl, fun _ _ => rfl, fun _ _ => rfl, ?_⟩
  intro car p rest uf text hf
  rw [scanStep_upc]
  exact lookup_upc_upc p uf

/-- C1 counterexample: the catalog-stage merge is a plain dict update — with
a populated title and a failed lookup, the title is overwritten with the
empty string by a pipeline stage, contradicting the claimed merge rule. -/
theorem merge_overwrite_cex :
    ({ title := "Speed Demon", brand := "Hot Wheels", image := "", upc := "",
       model_code := "" } : Car).title ≠ "" ∧
    (scanStep ({ title := "Speed Demon", brand := "Hot Wheels", image := "", upc := "",
                 model_code := "" } : Car)
        ["042100005264"] UpcFetch.netError "" HwFetch.netError).car.title =
      "" := by
  exact ⟨by decide, rfl⟩

/-- C1 amended: the catalog merge assigns all four incoming fields (title,
brand, image, upc) unconditionally, keeping only `model_code`; a populated
title survives the rest of the pipeline untouched (the collecthw stage
assigns a title only when the current title is empty and the scraped name
is non-empty); and an extracted model code overwrites `model_code`
unconditionally. -/
theorem merge_semantics :
    (∀ (car : Car) (r : ApiResult),
      updateCar car r =
        { title := r.title, brand := r.brand, image := r.image, upc := r.upc,
          model_code := car.model_code }) ∧
    (∀ (car : Car) (uf : UpcFetch) (text : String) (hf : HwFetch),
      car.title ≠ "" → (scanStep car [] uf text hf).car.title = car.title) ∧
    (∀ (car : Car) (uf : UpcFetch) (text : String) (hf : HwFetch),
      car.title = "" → (scanStep car [] uf text hf).car.title ≠ car.title →
      ∃ code nm, extract_model_code text = some code ∧
        (search_collecthw code hf).1 = some nm ∧ nm ≠ "" ∧
        (scanStep car [] uf text hf).car.title = nm) ∧
    (∀ (car : Car) (decoded : List String) (uf : UpcFetch) (text : String) (hf : HwFetch),
      (scanStep car decoded uf text hf).car.model_code =
        (match extract_model_code text with
         | some c => c
         | none => car.model_code)) := by
  refine ⟨fun car r => rfl, ?_, ?_, fun car decoded uf text hf => scanStep_model_code _ _ _ _ _⟩
  · intro car uf text hf h
    exact scanStep_title_guard car [] uf text hf h
  · intro car uf text hf h0 hch
    cases hext : extract_model_code text with
    | none =>
      exfalso
      apply hch
      unfold scanStep
      rw [hext]
      rfl
    | some code =>
      have hres : scanStep car [] uf text hf = modelCodeStage car [] code hf := by
        unfold scanStep
        rw [hext]
        rfl
      rcases modelCodeStage_title car [] code hf with h | ⟨nm, h1, h2, h3⟩
      · rw [hres] at hch
        exact absurd h hch
      · exact ⟨code, nm, rfl, h1, h2, by rw [hres]; exact h3⟩

/-- C1 witness: a populated title is preserved through a scan with no
barcode. -/
theorem merge_semantics_witness :
    (scanStep ⟨"Kept Title", "Hot Wheels", "", "", ""⟩ [] UpcFetch.netError
      "AAAAA-0000 text" HwFetch.netError).car.title = "Kept Title" :=
  merge_semantics.2.1 ⟨"Kept Title", "Hot Wheels", "", "", ""⟩ UpcFetch.netError
    "AAAAA-0000 text" HwFetch.netError (by decide)

/-- C2 counterexample: the catalog lookup is queried whenever a barcode
decodes, even though the record's title is already populated — contradicting
the claim that each source is invoked only while the title is still empty. -/
theorem resolver_guard_cex :
    ({ title := "Already Known", brand := "Hot Wheels", image := "", upc := "",
       model_code := "" } : Car).title ≠ "" ∧
    (scanStep ({ title := "Already Known", brand := "Hot Wheels", image := "", upc := "",
                 model_code := "" } : Car)
        ["042100005264"] UpcFetch.netError "" HwFetch.netError).queried =
      [Source.upcLookup] := by
  exact ⟨by decide, rfl⟩

/-- C2 amended: the chain is (1) catalog lookup, queried whenever a barcode
decodes regardless of the current title, then (2) the scrape-based collecthw
lookup, queried only when a model code was extracted and the title after the
catalog stage is empty (there is no separate code-search identity service in
this script); the trace is always an ordered sublist of those two sources,
and a non-empty catalog title takes precedence over a scrape title. -/
theorem resolver_chain :
    (∀ (car : Car) (decoded : List String) (uf : UpcFetch) (text : String) (hf : HwFetch),
      List.Sublist (scanStep car decoded uf text hf).queried
        [Source.upcLookup, Source.collecthwFetch]) ∧
    (∀ (car : Car) (decoded : List String) (uf : UpcFetch) (text : String) (hf : HwFetch),
      (Source.upcLookup ∈ (scanStep car decoded uf text hf).queried ↔ decoded ≠ [])) ∧
    (∀ (car : Car) (decoded : List String) (uf : UpcFetch) (text : String) (hf : HwFetch),
      (Source.collecthwFetch ∈ (scanStep car decoded uf text hf).queried ↔
        (extract_model_code text ≠ none ∧ (catalogStage car decoded uf).1.title = ""))) ∧
    (∀ (car : Car) (decoded : List String) (uf : UpcFetch) (text : String) (hf : HwFetch),
      (catalogStage car decoded uf).1.title ≠ "" →
      (scanStep car decoded uf text hf).car.title = (catalogStage car decoded uf).1.title) ∧
    (scanStep initCar ["012345678905"]
      (UpcFetch.jsonOk 200 ⟨some [⟨some "Mazda RX-7", some "Hot Wheels",
        some ["http://x/img.png"]⟩]⟩)
      "ZZ JBB49-N7C5" (HwFetch.response 200 [("/hw/item/9", "Toyota Supra")])).car.title =
      "Mazda RX-7" := by
  refine ⟨?_, ?_, ?_,
    fun car decoded uf text hf ht => scanStep_title_guard car decoded uf text hf ht, by rfl⟩
  · intro car decoded uf text hf
    rw [scanStep_queried]
    cases decoded with
    | nil =>
      show List.Sublist ([] ++ _) _
      split <;> decide
    | cons p rest =>
      show List.Sublist ([Source.upcLookup] ++ _) _
      split <;> decide
  · intro car decoded uf text hf
    rw [scanStep_queried]
    cases decoded with
    | nil =>
      rw [show (catalogStage car [] uf).2 = [] from rfl]
      split <;> simp
    | cons p rest =>
      rw [show (catalogStage car (p :: rest) uf).2 = [Source.upcLookup] from rfl]
      split <;> simp
  · intro car decoded uf text hf
    rw [scanStep_queried]
    by_cases hc : (extract_model_code text ≠ none ∧ (catalogStage car decoded uf).1.title = "")
    · rw [if_pos hc]
      exact iff_of_true (by cases decoded <;> simp [catalogStage]) hc
    · rw [if_neg hc]
      exact iff_of_false (by cases decoded <;> simp [catalogStage]) hc

/-- C2 witness: a non-empty catalog title propagates unchanged to the merged
record. -/
theorem resolver_chain_witness :
    (scanStep initCar ["012345678905"]
      (UpcFetch.jsonOk 200 ⟨some [⟨some "Mazda RX-7", none, none⟩]⟩)
      "" HwFetch.netError).car.title = "Mazda RX-7" :=
  resolver_chain.2.2.2.1 initCar ["012345678905"]
    (UpcFetch.jsonOk 200 ⟨some [⟨some "Mazda RX-7", none, none⟩]⟩)
    "" HwFetch.netError (by decide)

/-- C7 counterexample: `lookup_upc` never inspects the HTTP status code — a
non-200 response whose body carries a well-formed non-empty item list is
treated as a successful lookup, not degraded to "not found". -/
theorem lookup_status_cex :
    lookup_upc "012345678905"
      (UpcFetch.jsonOk 404 ⟨some [⟨some "Speed Demon", some "Hot Wheels",
        some ["http://x/img.png"]⟩]⟩) ≠ notFoundRes "012345678905" ∧
    (lookup_upc "012345678905"
      (UpcFetch.jsonOk 404 ⟨some [⟨some "Speed Demon", some "Hot Wheels",
        some ["http://x/img.png"]⟩]⟩)).title = "Speed Demon" := by
  exact ⟨by decide, rfl⟩

/-- C7 amended: every modelled failure degrades without an exception — for
`lookup_upc`: network exception, JSON parse failure, missing or empty item
list (but not the status code, which it ignores); for `search_collecthw`:
network exception, non-200 status, or no matching result element; and
`save_to_sheet` returns a failure flag with a reason string on both
connection failure and append failure. -/
theorem fault_tolerance :
    (∀ code : String, lookup_upc code UpcFetch.netError = notFoundRes code) ∧
    (∀ (code : String) (s : Nat), lookup_upc code (UpcFetch.jsonError s) = notFoundRes code) ∧
    (∀ (code : String) (s : Nat), lookup_upc code (UpcFetch.jsonOk s ⟨none⟩) = notFoundRes code) ∧
    (∀ (code : String) (s : Nat),
      lookup_upc code (UpcFetch.jsonOk s ⟨some []⟩) = notFoundRes code) ∧
    (∀ code : String, (search_collecthw code HwFetch.netError).1 = none) ∧
    (∀ (code : String) (s : Nat) (anchors : List (String × String)), s ≠ 200 →
      (search_collecthw code (HwFetch.response s anchors)).1 = none) ∧
    (∀ (code : String) (s : Nat) (anchors : List (String × String)),
      anchors.find? (fun a => containsSub a.1.data ("/hw/item/".data)) = none →
      (search_collecthw code (HwFetch.response s anchors)).1 = none) ∧
    (∀ car : Car, save_to_sheet car WriteOut.noConnection =
      (false, "❌ Error: Could not connect to Google Sheet.", [])) ∧
    (∀ (car : Car) (e : String), save_to_sheet car (WriteOut.appendError e) =
      (false, "❌ Cloud Error: " ++ e, [])) := by
  refine ⟨fun _ => rfl, fun _ _ => rfl, fun _ _ => rfl, fun _ _ => rfl, fun _ => rfl,
    ?_, ?_, fun _ => rfl, fun _ _ => rfl⟩
  · intro code s anchors hs
    simp only [search_collecthw]
    rw [if_neg hs]
  · intro code s anchors hfind
    simp only [search_collecthw]
    by_cases hs : s = 200
    · rw [if_pos hs, hfind]
    · rw [if_neg hs]

/-- C7 witness: a 500 response from collecthw degrades to "not found". -/
theorem fault_tolerance_witness :
    (search_collecthw ("JBB49-N7C5") (HwFetch.response 500 [("/hw/item/1", "X")])).1 = none :=
  fault_tolerance.2.2.2.2.2.1 ("JBB49-N7C5") 500 [("/hw/item/1", "X")] (by decide)

/-- C6: `extract_model_code` returns the leftmost substring matching
`[A-Z0-9]{5}-[A-Z0-9]{4}` and nothing when no position matches; in
particular the three behaviours named by the specification. -/
theorem extract_leftmost_spec (text : String) :
    (extract_model_code text = none ↔ ∀ i, matchAt (text.data.drop i) = false) ∧
    (∀ m : String, extract_model_code text = some m →
      ∃ i, matchAt (text.data.drop i) = true ∧
        (∀ j, j < i → matchAt (text.data.drop j) = false) ∧
        m = String.mk ((text.data.drop i).take 10)) ∧
    extract_model_code ("XX JBB49-N7C5 YY") = some ("JBB49-N7C5") ∧
    extract_model_code ("JBB49N7C5") = none ∧
    extract_model_code ("AAAAA-0000 BBBBB-1111") = some ("AAAAA-0000") := by
  refine ⟨?_, ?_, by decide, by decide, by decide⟩
  · unfold extract_model_code
    rw [Option.map_eq_none']
    exact findCodeAux_none_iff text.data
  · intro m hm
    unfold extract_model_code at hm
    cases hfc : findCodeAux text.data with
    | none =>
      rw [hfc] at hm
      exact absurd hm (by simp)
    | some ml =>
      rw [hfc] at hm
      simp only [Option.map_some'] at hm
      obtain ⟨i, h1, h2, h3⟩ := findCodeAux_some_leftmost text.data ml hfc
      exact ⟨i, h1, h2, by rw [← Option.some.inj hm, h3]⟩

/-- C6 witness: no position of the hyphen-less text matches the pattern. -/
theorem extract_leftmost_spec_witness :
    matchAt ((("JBB49N7C5") : String).data.drop 2) = false :=
  (extract_leftmost_spec ("JBB49N7C5")).1.mp (by decide) 2

/-- C8: the collecthw URL is the fixed base path plus the base64 of the
UTF-8 bytes of the stripped pre-hyphen segment; base64-decoding recovers
those bytes exactly (and, for a grammar-matching code, the five-character
segment itself); and the URL returned with every outcome — in particular the
manual fallback link surfaced to the user — is the same URL used for the
fetch attempt. -/
theorem collecthw_url_reversible (code : String) (out : HwFetch) :
    (search_collecthw code out).2 = collecthw_url code ∧
    collecthw_url code =
      "https://collecthw.com/hw/search/" ++
        String.mk (b64encode (utf8EncodeL (collecthw_clean code))) ∧
    b64decode (b64encode (utf8EncodeL (collecthw_clean code))) =
      utf8EncodeL (collecthw_clean code) ∧
    (matchAt code.data = true →
      collecthw_clean code = code.data.take 5 ∧
      String.mk ((b64decode (b64encode (utf8EncodeL (collecthw_clean code)))).map Char.ofNat) =
        String.mk (code.data.take 5)) ∧
    (∀ (car : Car) (decoded : List String) (uf : UpcFetch) (text : String)
        (hf : HwFetch) (l : String),
      (scanStep car decoded uf text hf).shownLink = some l →
      ∃ c, extract_model_code text = some c ∧ l = collecthw_url c ∧
        (search_collecthw c hf).2 = l) := by
  refine ⟨search_collecthw_snd code out, rfl, b64_roundtrip _ (utf8EncodeL_lt _), ?_, ?_⟩
  · intro hm
    obtain ⟨h1, h2⟩ := collecthw_clean_grammar code hm
    refine ⟨h1, ?_⟩
    rw [b64_roundtrip _ (utf8EncodeL_lt _),
      ascii_recover _ (fun c hc => isCU_ascii c (h2 c hc)), h1]
  · intro car decoded uf text hf l hl
    obtain ⟨c, hc1, hc2⟩ := scanStep_shownLink car decoded uf text hf l hl
    refine ⟨c, hc1, hc2, ?_⟩
    rw [search_collecthw_snd]
    exact hc2.symm

/-- C8 witness: for the grammar code JBB49-N7C5 the encoded URL suffix
decodes back to the pre-hyphen segment JBB49. -/
theorem collecthw_url_reversible_witness :
    collecthw_clean ("JBB49-N7C5") = (("JBB49-N7C5") : String).data.take 5 ∧
    String.mk ((b64decode (b64encode (utf8EncodeL
        (collecthw_clean ("JBB49-N7C5"))))).map Char.ofNat) =
      String.mk ((("JBB49-N7C5") : String).data.take 5) :=
  (collecthw_url_reversible ("JBB49-N7C5") HwFetch.netError).2.2.2.1 (by decide)

end UpcScanner
